import Mathlib

/-!
# Verification of the heif2jpg P010 conversion core

Shallow embedding of `src/app/main.cc` (the planar-YCbCr → P010 repacking
application).  Machine integers are modelled as `Nat`/`Int` with explicit
`% 2 ^ w` where C truncation matters; the decoded source planes are modelled
as flat word buffers `Nat → Nat` (a `uint16_t` load truncates to 16 bits);
the two conversion entry points `save_uhdr_jpg_file` and `save_p010_file`
become pure functions returning a result record that tracks the exit code,
the error category, the malloc/free activity and the sample reads, exactly
in the order the C code performs them.
-/

namespace Heif2Jpg

/-- Error categories of the conversion layer, one per distinct failure
message in `save_uhdr_jpg_file` / `save_p010_file` of `src/app/main.cc`. -/
inductive ErrKind where
  | fileOpen            -- "Can't open <file>" (lines 95-100 / 255-260)
  | invalidGeometry     -- "Invalid Y or C plane width" (lines 124-129 / 284-289)
  | encoderSetup        -- uhdr_enc_set_raw_image failure (lines 198-204)
  | encoderEncode       -- uhdr_encode failure (lines 214-220)
  | postEncodeWrite     -- "Unable to write to file after encoding" (lines 238-241)
  | unsupportedBitDepth -- "8-bit input not supported yet." (lines 243-246 / 331-335)
  deriving DecidableEq

/-- Exit code the source returns for each failure category
(return statements at lines 99, 128, 203, 219, 240, 245 and 259, 288, 334). -/
def exitCodeOf : ErrKind → Nat
  | .fileOpen => 9
  | .invalidGeometry => 10
  | .encoderSetup => 11
  | .encoderEncode => 12
  | .postEncodeWrite => 13
  | .unsupportedBitDepth => 10

/-- Reading a `uint16_t` word from a source plane buffer: the stored value
occupies 16 bits. -/
def readWord (buf : Nat → Nat) (i : Nat) : Nat := buf i % 65536

/-- The per-sample repack of lines 164-165 / 307-308:
`uint16_t word = *p; word = (word << 6);` — the shift happens in `int` and
is truncated back to 16 bits on the store. -/
def packWord (w : Nat) : Nat := (w * 64) % 65536

/-- The luma repack loop (lines 160-170 and 303-311): for each row `y < yh`
and column `z < yw`, read the word at `z + y * yw` (note: the source indexes
with the plane WIDTH `yw`, not the stride obtained at line 111/271) and
append its packed value contiguously. -/
def lumaWords (yp : Nat → Nat) (yw yh : Nat) : List Nat :=
  (List.range yh).flatMap fun y =>
    (List.range yw).map fun z => packWord (readWord yp (z + y * yw))

/-- The chroma interleave loop (lines 176-193 and 316-329): for each row
`y < ch` and column `z < cw`, read Cb then Cr at `z + y * cw` (again the
WIDTH `cw`, not the stride) and append the packed pair U-then-V. -/
def chromaWords (cb cr : Nat → Nat) (cw ch : Nat) : List Nat :=
  (List.range ch).flatMap fun y =>
    (List.range cw).flatMap fun z =>
      [packWord (readWord cb (z + y * cw)), packWord (readWord cr (z + y * cw))]

/-- Serialization of one 16-bit word as two bytes, low byte first, as done
by `fp.write((char *)&word, 2)` on the little-endian target the source
comments assume. -/
def le16 (w : Nat) : List Nat := [w % 256, w / 256]

/-- The spec's addressing of the sample at coordinates `(x, y)` of a plane
with row stride `stride` (in 16-bit words): the word at `y * stride + x`. -/
def sampleAt (buf : Nat → Nat) (stride x y : Nat) : Nat :=
  readWord buf (y * stride + x)

/-- The 16-bit word stored little-endian at word index `i` of a byte
stream. -/
def wordAt (bytes : List Nat) (i : Nat) : Nat :=
  bytes.getD (2 * i) 0 + 256 * bytes.getD (2 * i + 1) 0

/-- Modelled from the spec: the decode collaborator (the HEIF decoder, not
part of `src/`) produces 4:2:0 chroma planes whose dimensions are the luma
dimensions halved, "rounded per 4:2:0" — the rounding is upward, since a
chroma sample must exist for every (possibly partial) 2×2 luma block. -/
def ceilHalf (n : Nat) : Nat := (n + 1) / 2

/-- Outcome of the encode collaborator (libultrahdr, external to this
repository): whether `uhdr_enc_set_raw_image` and `uhdr_encode` succeed, and
the size of the encoded stream returned by `uhdr_get_encoded_stream`. -/
structure EncoderEnv where
  setupOk : Bool
  encodeOk : Bool
  encodedSize : Nat

/-- Observable outcome of one `save_uhdr_jpg_file` run: exit code, error
category, the `malloc` request sizes in call order (as the C `int`
expressions passed in), the number of `free` calls on core-owned buffers,
the number of 16-bit sample words read from the source planes, and the two
packed buffers. -/
structure UhdrResult where
  exitCode : Nat
  err : Option ErrKind
  allocBytes : List Int
  freeCalls : Nat
  readCount : Nat
  lumaPacked : List Nat
  chromaPacked : List Nat
  deriving DecidableEq

/-- Embedding of `save_uhdr_jpg_file` (lines 86-249).  Control flow in
source order: the `ofstream` open check (line 95), the width check
(line 124), the two `malloc` calls (lines 141-142), the bit-depth branch
(line 149), the P010 packing loops, then the encoder calls; `fp.is_open()`
at line 236 is necessarily true there because `fp.good()` held at entry and
`fp.close()` only runs on the (already returned) geometry branch, so the
line-240 return 13 is unreachable.  The source contains no `free` call, so
`freeCalls` is 0 on every path. -/
def save_uhdr_jpg_file (fileOk : Bool) (ybpp yw yh cw ch : Int)
    (yp cb cr : Nat → Nat) (env : EncoderEnv) : UhdrResult :=
  if fileOk = false then ⟨9, some .fileOpen, [], 0, 0, [], []⟩
  else if yw < 0 ∨ cw < 0 then ⟨10, some .invalidGeometry, [], 0, 0, [], []⟩
  else if ybpp = 10 then
    if env.setupOk = false then
      ⟨11, some .encoderSetup, [2 * yw * yh, 2 * (yw / 2) * (yh / 2) * 2], 0,
        yw.toNat * yh.toNat + 2 * (cw.toNat * ch.toNat),
        lumaWords yp yw.toNat yh.toNat, chromaWords cb cr cw.toNat ch.toNat⟩
    else if env.encodeOk = false then
      ⟨12, some .encoderEncode, [2 * yw * yh, 2 * (yw / 2) * (yh / 2) * 2], 0,
        yw.toNat * yh.toNat + 2 * (cw.toNat * ch.toNat),
        lumaWords yp yw.toNat yh.toNat, chromaWords cb cr cw.toNat ch.toNat⟩
    else
      ⟨0, none, [2 * yw * yh, 2 * (yw / 2) * (yh / 2) * 2, (env.encodedSize : Int)], 0,
        yw.toNat * yh.toNat + 2 * (cw.toNat * ch.toNat),
        lumaWords yp yw.toNat yh.toNat, chromaWords cb cr cw.toNat ch.toNat⟩
  else ⟨10, some .unsupportedBitDepth, [2 * yw * yh, 2 * (yw / 2) * (yh / 2) * 2], 0, 0, [], []⟩

/-- Observable outcome of one `save_p010_file` run: exit code, error
category, the bytes written to the output file, and the number of 16-bit
sample words read from the source planes. -/
structure P010Result where
  exitCode : Nat
  err : Option ErrKind
  bytes : List Nat
  readCount : Nat
  deriving DecidableEq

/-- Embedding of `save_p010_file` (lines 251-339).  Control flow in source
order: open check (line 255), width check (line 284), bit-depth branch
(line 292); on the 10-bit path the luma loop writes each packed word as two
bytes, then the chroma loop does the same for the interleaved pairs. -/
def save_p010_file (fileOk : Bool) (ybpp yw yh cw ch : Int)
    (yp cb cr : Nat → Nat) : P010Result :=
  if fileOk = false then ⟨9, some .fileOpen, [], 0⟩
  else if yw < 0 ∨ cw < 0 then ⟨10, some .invalidGeometry, [], 0⟩
  else if ybpp = 10 then
    ⟨0, none,
      (lumaWords yp yw.toNat yh.toNat).flatMap le16 ++
        (chromaWords cb cr cw.toNat ch.toNat).flatMap le16,
      yw.toNat * yh.toNat + 2 * (cw.toNat * ch.toNat)⟩
  else ⟨10, some .unsupportedBitDepth, [], 0⟩

/-- Embedding of `derive_output_filename` (lines 72-84): take the input
filename up to the last `.` (`rfind`; the whole name when there is none)
and append `"." + suffix`.  Strings are modelled as `List Char`. -/
def rfindDotIdx : List Char → Option Nat
  | [] => none
  | c :: rest =>
    match rfindDotIdx rest with
    | some p => some (p + 1)
    | none => if c = '.' then some 0 else none

/-- Embedding of the body of `derive_output_filename` (lines 72-84). -/
def derive_output_filename (input suffix : List Char) : List Char :=
  match rfindDotIdx input with
  | some p => input.take p ++ ('.' :: suffix)
  | none => input ++ ('.' :: suffix)

/-- Embedding of `output_filename.starts_with("-")` (line 385). -/
def startsWithDash : List Char → Bool
  | '-' :: _ => true
  | _ => false

/-- Embedding of the output-filename selection in `main` (lines 384-390):
a user-supplied name beginning with `-` (the default is `"-"`) is replaced
by the derived name, with suffix `p010` in raw mode and `uhdr.jpg` in
encode mode. -/
def mainOutputFilename (output_p010 : Bool) (input output : List Char) : List Char :=
  if startsWithDash output then
    if output_p010 then derive_output_filename input ['p', '0', '1', '0']
    else derive_output_filename input ['u', 'h', 'd', 'r', '.', 'j', 'p', 'g']
  else output

end Heif2Jpg

namespace Heif2Jpg

/-- Concatenating `k`-wide mapped rows over `n` rows is the map over the
flat index range `n * k`; this is the row-major flattening of the luma
loop. -/
theorem flatMap_range_map (g : Nat → Nat) (k : Nat) :
    ∀ n, ((List.range n).flatMap fun y => (List.range k).map fun z => g (z + y * k)) =
      (List.range (n * k)).map g := by
  intro n
  induction n with
  | zero => simp
  | succ m ih =>
    rw [List.range_succ, List.flatMap_append, ih, Nat.succ_mul, List.range_add]
    simp [List.map_map, Function.comp, Nat.add_comm]

/-- Row-major flattening for a loop body producing a block of words per
flat index. -/
theorem flatMap_range_flatMap (f : Nat → List Nat) (k : Nat) :
    ∀ n, ((List.range n).flatMap fun y => (List.range k).flatMap fun z => f (z + y * k)) =
      (List.range (n * k)).flatMap f := by
  intro n
  induction n with
  | zero => simp
  | succ m ih =>
    rw [List.range_succ, List.flatMap_append, ih, Nat.succ_mul, List.range_add,
      List.flatMap_append, List.flatMap_map]
    simp [Nat.add_comm]

/-- Length of an interleaved pair list. -/
theorem pair_flatMap_length (u v : Nat → Nat) (N : Nat) :
    ((List.range N).flatMap fun s => [u s, v s]).length = 2 * N := by
  induction N with
  | zero => rfl
  | succ m ih =>
    rw [List.range_succ, List.flatMap_append, List.length_append, ih]
    simp [Nat.mul_succ]

/-- Indexing an interleaved pair list: position `2 t` holds the first
component and `2 t + 1` the second. -/
theorem pair_flatMap_getD (u v : Nat → Nat) :
    ∀ N t, t < N →
      ((List.range N).flatMap fun s => [u s, v s]).getD (2 * t) 0 = u t ∧
      ((List.range N).flatMap fun s => [u s, v s]).getD (2 * t + 1) 0 = v t := by
  intro N
  induction N with
  | zero => intro t ht; exact absurd ht (Nat.not_lt_zero t)
  | succ m ih =>
    intro t ht
    have hlen : ((List.range m).flatMap fun s => [u s, v s]).length = 2 * m :=
      pair_flatMap_length u v m
    rcases Nat.lt_succ_iff_lt_or_eq.mp ht with h | h
    · have h1 : 2 * t < 2 * m := by omega
      have h2 : 2 * t + 1 < 2 * m := by omega
      rw [List.range_succ, List.flatMap_append]
      constructor
      · rw [List.getD_append _ _ _ _ (by rw [hlen]; exact h1)]
        exact (ih t h).1
      · rw [List.getD_append _ _ _ _ (by rw [hlen]; exact h2)]
        exact (ih t h).2
    · subst h
      rw [List.range_succ, List.flatMap_append]
      constructor
      · rw [List.getD_append_right _ _ _ _ (by rw [hlen])]
        simp [hlen]
      · rw [List.getD_append_right _ _ _ _ (by omega)]
        simp [hlen]

/-- Indexing a mapped range. -/
theorem range_map_getD (g : Nat → Nat) (N t : Nat) (ht : t < N) :
    ((List.range N).map g).getD t 0 = g t := by
  rw [List.getD_eq_getElem?_getD, List.getElem?_map, List.getElem?_range ht]
  rfl

/-- Serializing a word list little-endian doubles its length. -/
theorem le16_flatMap_length : ∀ ws : List Nat, (ws.flatMap le16).length = 2 * ws.length := by
  intro ws
  induction ws with
  | nil => rfl
  | cons w ws ih =>
    rw [List.flatMap_cons, List.length_append, ih]
    simp [le16]
    omega

/-- Reading back the `i`-th word of a little-endian serialized word list
recovers the word. -/
theorem wordAt_flatMap_le16 : ∀ (ws : List Nat) (i : Nat), i < ws.length →
    wordAt (ws.flatMap le16) i = ws.getD i 0 := by
  intro ws
  induction ws with
  | nil => intro i hi; exact absurd hi (Nat.not_lt_zero i)
  | cons w ws ih =>
    intro i hi
    cases i with
    | zero =>
      unfold wordAt
      rw [List.flatMap_cons]
      simp only [le16, List.cons_append, Nat.mul_zero, Nat.zero_add,
        List.getD_cons_zero, List.getD_cons_succ, List.nil_append]
      omega
    | succ j =>
      have hj : j < ws.length := by
        simpa using Nat.lt_of_succ_lt_succ (by simpa using hi)
      have e1 : 2 * (j + 1) = (2 * j + 1) + 1 := by omega
      unfold wordAt
      rw [List.flatMap_cons]
      simp only [le16, List.cons_append, List.nil_append]
      rw [e1]
      simp only [List.getD_cons_succ]
      have := ih j hj
      unfold wordAt at this
      exact this

/-- The luma loop flattened: row-major over the flat index. -/
theorem lumaWords_eq_map (yp : Nat → Nat) (yw yh : Nat) :
    lumaWords yp yw yh = (List.range (yh * yw)).map fun t => packWord (readWord yp t) := by
  unfold lumaWords
  exact flatMap_range_map (fun t => packWord (readWord yp t)) yw yh

/-- The chroma loop flattened: one U/V pair per flat chroma index. -/
theorem chromaWords_eq_pairs (cb cr : Nat → Nat) (cw ch : Nat) :
    chromaWords cb cr cw ch =
      (List.range (ch * cw)).flatMap fun t =>
        [packWord (readWord cb t), packWord (readWord cr t)] := by
  unfold chromaWords
  exact flatMap_range_flatMap
    (fun t => [packWord (readWord cb t), packWord (readWord cr t)]) cw ch

/-- The packed luma buffer holds exactly `yh * yw` words. -/
theorem lumaWords_length (yp : Nat → Nat) (yw yh : Nat) :
    (lumaWords yp yw yh).length = yh * yw := by
  rw [lumaWords_eq_map]
  simp

/-- The packed chroma buffer holds exactly `2 * (ch * cw)` words. -/
theorem chromaWords_length (cb cr : Nat → Nat) (cw ch : Nat) :
    (chromaWords cb cr cw ch).length = 2 * (ch * cw) := by
  rw [chromaWords_eq_pairs]
  exact pair_flatMap_length _ _ (ch * cw)

/-- Word `t` of the packed luma buffer. -/
theorem lumaWords_getD (yp : Nat → Nat) (yw yh t : Nat) (ht : t < yh * yw) :
    (lumaWords yp yw yh).getD t 0 = packWord (readWord yp t) := by
  rw [lumaWords_eq_map]
  exact range_map_getD _ _ _ ht

/-- Words `2 t` and `2 t + 1` of the packed chroma buffer: the Cb value
then the Cr value of flat chroma index `t`. -/
theorem chromaWords_getD (cb cr : Nat → Nat) (cw ch t : Nat) (ht : t < ch * cw) :
    (chromaWords cb cr cw ch).getD (2 * t) 0 = packWord (readWord cb t) ∧
    (chromaWords cb cr cw ch).getD (2 * t + 1) 0 = packWord (readWord cr t) := by
  rw [chromaWords_eq_pairs]
  exact pair_flatMap_getD _ _ (ch * cw) t ht

/-- On an opened file, nonnegative dimensions and a 10-bit source, the
encoder-path run performs the full repack; its packed chroma buffer is the
interleaved loop output, whatever the encoder then does. -/
theorem save_uhdr_chromaPacked_eq (yp cb cr : Nat → Nat) (yw yh cw ch : Nat)
    (env : EncoderEnv) :
    (save_uhdr_jpg_file true 10 yw yh cw ch yp cb cr env).chromaPacked =
      chromaWords cb cr cw ch := by
  have hg : ¬((yw : Int) < 0 ∨ (cw : Int) < 0) := by
    push_neg
    exact ⟨Int.natCast_nonneg yw, Int.natCast_nonneg cw⟩
  unfold save_uhdr_jpg_file
  rw [if_neg (by simp), if_neg hg, if_pos rfl]
  cases h1 : env.setupOk <;> cases h2 : env.encodeOk <;>
    simp [h1, h2, Int.toNat_natCast]

/-- On an opened file, nonnegative dimensions and a 10-bit source, the
raw-output run succeeds and emits the serialized luma words followed by the
serialized interleaved chroma words. -/
theorem save_p010_file_eq (yp cb cr : Nat → Nat) (yw yh cw ch : Nat) :
    save_p010_file true 10 yw yh cw ch yp cb cr =
      ⟨0, none,
        (lumaWords yp yw yh).flatMap le16 ++ (chromaWords cb cr cw ch).flatMap le16,
        yw * yh + 2 * (cw * ch)⟩ := by
  have hg : ¬((yw : Int) < 0 ∨ (cw : Int) < 0) := by
    push_neg
    exact ⟨Int.natCast_nonneg yw, Int.natCast_nonneg cw⟩
  unfold save_p010_file
  rw [if_neg (by simp), if_neg hg, if_pos rfl]
  simp [Int.toNat_natCast]

/-- The raw-output byte stream is the little-endian serialization of the
luma words followed by the chroma words. -/
theorem save_p010_bytes_eq (yp cb cr : Nat → Nat) (yw yh cw ch : Nat) :
    (save_p010_file true 10 yw yh cw ch yp cb cr).bytes =
      (lumaWords yp yw yh ++ chromaWords cb cr cw ch).flatMap le16 := by
  rw [save_p010_file_eq, List.flatMap_append]

/-- Word `i` of the raw-output stream, for `i` inside the luma region, is
luma word `i`. -/
theorem p010_luma_wordAt (yp cb cr : Nat → Nat) (yw yh cw ch i : Nat)
    (hi : i < yw * yh) :
    wordAt (save_p010_file true 10 yw yh cw ch yp cb cr).bytes i =
      (lumaWords yp yw yh).getD i 0 := by
  rw [save_p010_bytes_eq]
  have hb : i < (lumaWords yp yw yh ++ chromaWords cb cr cw ch).length := by
    rw [List.length_append, lumaWords_length, Nat.mul_comm yh yw]
    omega
  rw [wordAt_flatMap_le16 _ _ hb]
  exact List.getD_append _ _ _ _ (by rw [lumaWords_length, Nat.mul_comm yh yw]; exact hi)

/-- Word `yw * yh + j` of the raw-output stream, for `j` inside the chroma
region, is chroma word `j`. -/
theorem p010_chroma_wordAt (yp cb cr : Nat → Nat) (yw yh cw ch j : Nat)
    (hj : j < 2 * (ch * cw)) :
    wordAt (save_p010_file true 10 yw yh cw ch yp cb cr).bytes (yw * yh + j) =
      (chromaWords cb cr cw ch).getD j 0 := by
  rw [save_p010_bytes_eq]
  have hb : yw * yh + j < (lumaWords yp yw yh ++ chromaWords cb cr cw ch).length := by
    rw [List.length_append, lumaWords_length, chromaWords_length, Nat.mul_comm yh yw]
    omega
  rw [wordAt_flatMap_le16 _ _ hb]
  rw [List.getD_append_right _ _ _ _ (by rw [lumaWords_length, Nat.mul_comm yh yw]; omega)]
  have he : yw * yh + j - (lumaWords yp yw yh).length = j := by
    rw [lumaWords_length, Nat.mul_comm yh yw]
    omega
  rw [he]

/-- C3 (counterexample): with a blue plane of width 1, height 2 and word
stride 2 holding logical samples 10 and 20 (99 is row padding), the packed
chroma word at index `2*(1*Cw+0)` is derived from the padding word 99, not
from the blue sample 20 at coordinates (0,1): the claim's coordinate
correspondence fails when the chroma stride exceeds the chroma width. -/
theorem c3_coordinate_counterexample :
    (chromaWords (fun i => [10, 99, 20, 0].getD i 0) (fun _ => 0) 1 2).getD
        (2 * (1 * 1 + 0)) 0 = packWord 99 ∧
    packWord (sampleAt (fun i => [10, 99, 20, 0].getD i 0) 2 0 1) = packWord 20 ∧
    (chromaWords (fun i => [10, 99, 20, 0].getD i 0) (fun _ => 0) 1 2).getD
        (2 * (1 * 1 + 0)) 0 ≠
      packWord (sampleAt (fun i => [10, 99, 20, 0].getD i 0) 2 0 1) := by
  decide

/-- C3 (amended): for every chroma coordinate (x, y), the packed chroma
word at index `2*(y*Cw+x)` derives from the blue-plane buffer word at index
`y*Cw+x` (the coordinate sample exactly when the plane's word stride equals
`Cw`) and the word at `2*(y*Cw+x)+1` from the red-plane word at the same
index; blue (U) precedes red (V) in every pair, both in the in-memory
encoder path and in the raw-file path. -/
theorem c3_pairing_order (yp cb cr : Nat → Nat) (yw yh cw ch : Nat)
    (env : EncoderEnv) (x y : Nat) (hx : x < cw) (hy : y < ch) :
    (save_uhdr_jpg_file true 10 yw yh cw ch yp cb cr env).chromaPacked.getD
        (2 * (y * cw + x)) 0 = packWord (readWord cb (y * cw + x)) ∧
    (save_uhdr_jpg_file true 10 yw yh cw ch yp cb cr env).chromaPacked.getD
        (2 * (y * cw + x) + 1) 0 = packWord (readWord cr (y * cw + x)) ∧
    wordAt (save_p010_file true 10 yw yh cw ch yp cb cr).bytes
        (yw * yh + 2 * (y * cw + x)) = packWord (readWord cb (y * cw + x)) ∧
    wordAt (save_p010_file true 10 yw yh cw ch yp cb cr).bytes
        (yw * yh + (2 * (y * cw + x) + 1)) = packWord (readWord cr (y * cw + x)) := by
  have ht : y * cw + x < ch * cw := by
    have h1 : y * cw + x < (y + 1) * cw := by
      rw [Nat.succ_mul]
      omega
    have h2 : (y + 1) * cw ≤ ch * cw := Nat.mul_le_mul_right cw hy
    omega
  have hcg := chromaWords_getD cb cr cw ch (y * cw + x) ht
  have huv := save_uhdr_chromaPacked_eq yp cb cr yw yh cw ch env
  refine ⟨?_, ?_, ?_, ?_⟩
  · rw [huv]
    exact hcg.1
  · rw [huv]
    exact hcg.2
  · rw [p010_chroma_wordAt yp cb cr yw yh cw ch _ (by omega)]
    exact hcg.1
  · rw [p010_chroma_wordAt yp cb cr yw yh cw ch _ (by omega)]
    exact hcg.2

/-- Witness for C3 (amended) at a concrete 2×2 image with 1×1 chroma. -/
theorem c3_pairing_order_witness :
    (save_uhdr_jpg_file true 10 2 2 1 1 (fun _ => 4) (fun _ => 5) (fun _ => 6)
        ⟨true, true, 0⟩).chromaPacked.getD (2 * (0 * 1 + 0)) 0 =
      packWord (readWord (fun _ => 5) (0 * 1 + 0)) :=
  (c3_pairing_order (fun _ => 4) (fun _ => 5) (fun _ => 6) 2 2 1 1
    ⟨true, true, 0⟩ 0 0 (by norm_num) (by norm_num)).1

/-- C8: a successful 10-bit raw-P010 run emits exactly the `Yw*Yh`
little-endian packed luma words in row-major order, immediately followed by
the `Cw*Ch` interleaved U/V word pairs, for a total of
`2*(Yw*Yh) + 2*(2*Cw*Ch)` bytes and nothing else. -/
theorem c8_raw_p010_format (yp cb cr : Nat → Nat) (yw yh cw ch : Nat) :
    (save_p010_file true 10 yw yh cw ch yp cb cr).exitCode = 0 ∧
    (save_p010_file true 10 yw yh cw ch yp cb cr).err = none ∧
    (save_p010_file true 10 yw yh cw ch yp cb cr).bytes =
      (lumaWords yp yw yh).flatMap le16 ++ (chromaWords cb cr cw ch).flatMap le16 ∧
    (save_p010_file true 10 yw yh cw ch yp cb cr).bytes.length =
      2 * (yw * yh) + 2 * (2 * (cw * ch)) ∧
    (∀ i, i < yw * yh →
      wordAt (save_p010_file true 10 yw yh cw ch yp cb cr).bytes i =
        (lumaWords yp yw yh).getD i 0) ∧
    (∀ j, j < 2 * (cw * ch) →
      wordAt (save_p010_file true 10 yw yh cw ch yp cb cr).bytes (yw * yh + j) =
        (chromaWords cb cr cw ch).getD j 0) := by
  refine ⟨?_, ?_, ?_, ?_, ?_, ?_⟩
  · rw [save_p010_file_eq]
  · rw [save_p010_file_eq]
  · rw [save_p010_file_eq]
  · rw [save_p010_bytes_eq, le16_flatMap_length, List.length_append,
      lumaWords_length, chromaWords_length, Nat.mul_comm yh yw, Nat.mul_comm ch cw]
    ring
  · intro i hi
    exact p010_luma_wordAt yp cb cr yw yh cw ch i hi
  · intro j hj
    exact p010_chroma_wordAt yp cb cr yw yh cw ch j (by rw [Nat.mul_comm ch cw]; exact hj)

/-- Witness for C8 at a concrete 2×1 image with 1×1 chroma. -/
theorem c8_raw_p010_format_witness :
    (save_p010_file true 10 2 1 1 1 (fun _ => 1) (fun _ => 2) (fun _ => 3)).bytes.length =
      2 * (2 * 1) + 2 * (2 * (1 * 1)) ∧
    wordAt (save_p010_file true 10 2 1 1 1 (fun _ => 1) (fun _ => 2) (fun _ => 3)).bytes 0 =
      (lumaWords (fun _ => 1) 2 1).getD 0 0 :=
  ⟨(c8_raw_p010_format (fun _ => 1) (fun _ => 2) (fun _ => 3) 2 1 1 1).2.2.2.1,
    (c8_raw_p010_format (fun _ => 1) (fun _ => 2) (fun _ => 3) 2 1 1 1).2.2.2.2.1 0
      (by norm_num)⟩

/-- C4: every packed word equals the low 10 bits of the source word shifted
left by 6 in 16-bit modular arithmetic, its low 6 bits are zero, and a right
shift by 6 recovers exactly the low 10 bits of the source word. -/
theorem c4_pack_roundtrip (w : Nat) (h : w < 65536) :
    packWord w = (w % 1024) * 64 ∧ packWord w % 64 = 0 ∧ packWord w / 64 = w % 1024 := by
  unfold packWord
  omega

/-- Witness for C4 at the concrete source word 0xABCD (high 6 bits nonzero). -/
theorem c4_pack_roundtrip_witness :
    packWord 43981 = (43981 % 1024) * 64 ∧ packWord 43981 % 64 = 0 ∧
      packWord 43981 / 64 = 43981 % 1024 :=
  c4_pack_roundtrip 43981 (by norm_num)

/-- C1 (code bug): a 1×2 luma plane with source word stride 2 (buffer
`[5, 7, 9, 11]`, logical samples 5 and 9, padding 7 and 11) and the same
plane with tight stride 1 (buffer `[5, 9]`) hold identical logical samples
at every coordinate, yet the luma loop — which indexes the source with the
width instead of the obtained stride — packs them to different buffers:
`[320, 448]` (the padding word 7 packed) versus `[320, 576]`. -/
theorem c1_stride_ignored :
    sampleAt (fun i => [5, 7, 9, 11].getD i 0) 2 0 0 =
      sampleAt (fun i => [5, 9].getD i 0) 1 0 0 ∧
    sampleAt (fun i => [5, 7, 9, 11].getD i 0) 2 0 1 =
      sampleAt (fun i => [5, 9].getD i 0) 1 0 1 ∧
    lumaWords (fun i => [5, 7, 9, 11].getD i 0) 1 2 = [320, 448] ∧
    lumaWords (fun i => [5, 9].getD i 0) 1 2 = [320, 576] ∧
    lumaWords (fun i => [5, 7, 9, 11].getD i 0) 1 2 ≠
      lumaWords (fun i => [5, 9].getD i 0) 1 2 := by
  decide

/-- C2 (code bug): for a 3×2 luma plane the decoded 4:2:0 chroma planes are
2×1 (`ceilHalf`), the UV `malloc` at line 142 requests
`2*(3/2)*(2/2)*2 = 4` bytes (2 words), yet the interleave loop writes
`2*Cw*Ch = 4` words (8 bytes): the loop overruns the allocation. -/
theorem c2_chroma_overflow :
    ceilHalf 3 = 2 ∧ ceilHalf 2 = 1 ∧
    (save_uhdr_jpg_file true 10 3 2 2 1 (fun _ => 0) (fun _ => 0) (fun _ => 0)
        ⟨true, true, 0⟩).allocBytes.getD 1 0 = 4 ∧
    2 * ((save_uhdr_jpg_file true 10 3 2 2 1 (fun _ => 0) (fun _ => 0) (fun _ => 0)
        ⟨true, true, 0⟩).chromaPacked.length : Int) = 8 ∧
    (save_uhdr_jpg_file true 10 3 2 2 1 (fun _ => 0) (fun _ => 0) (fun _ => 0)
        ⟨true, true, 0⟩).allocBytes.getD 1 0 <
      2 * ((save_uhdr_jpg_file true 10 3 2 2 1 (fun _ => 0) (fun _ => 0) (fun _ => 0)
        ⟨true, true, 0⟩).chromaPacked.length : Int) := by
  decide

/-- C9 (code bug): `save_uhdr_jpg_file` contains no `free` call at all, so
on the success path, the encoder-setup-failure path and the encode-failure
path alike the malloc'd packed buffers (and, on success, the copied encoded
stream) are never released. -/
theorem c9_buffers_never_freed :
    (save_uhdr_jpg_file true 10 2 2 1 1 (fun _ => 0) (fun _ => 0) (fun _ => 0)
        ⟨true, true, 7⟩).exitCode = 0 ∧
    (save_uhdr_jpg_file true 10 2 2 1 1 (fun _ => 0) (fun _ => 0) (fun _ => 0)
        ⟨true, true, 7⟩).allocBytes = [8, 4, 7] ∧
    (save_uhdr_jpg_file true 10 2 2 1 1 (fun _ => 0) (fun _ => 0) (fun _ => 0)
        ⟨true, true, 7⟩).freeCalls = 0 ∧
    (save_uhdr_jpg_file true 10 2 2 1 1 (fun _ => 0) (fun _ => 0) (fun _ => 0)
        ⟨false, true, 7⟩).err = some ErrKind.encoderSetup ∧
    (save_uhdr_jpg_file true 10 2 2 1 1 (fun _ => 0) (fun _ => 0) (fun _ => 0)
        ⟨false, true, 7⟩).allocBytes = [8, 4] ∧
    (save_uhdr_jpg_file true 10 2 2 1 1 (fun _ => 0) (fun _ => 0) (fun _ => 0)
        ⟨false, true, 7⟩).freeCalls = 0 ∧
    (save_uhdr_jpg_file true 10 2 2 1 1 (fun _ => 0) (fun _ => 0) (fun _ => 0)
        ⟨true, false, 7⟩).err = some ErrKind.encoderEncode ∧
    (save_uhdr_jpg_file true 10 2 2 1 1 (fun _ => 0) (fun _ => 0) (fun _ => 0)
        ⟨true, false, 7⟩).allocBytes = [8, 4] ∧
    (save_uhdr_jpg_file true 10 2 2 1 1 (fun _ => 0) (fun _ => 0) (fun _ => 0)
        ⟨true, false, 7⟩).freeCalls = 0 := by
  decide

/-- C5 (counterexample): a zero-width image (and likewise a negative-height
one) is NOT rejected with the invalid-geometry error — the width check at
line 124/284 only catches strictly negative widths, so these runs proceed
and even succeed. -/
theorem c5_zero_width_accepted :
    (save_uhdr_jpg_file true 10 0 2 0 1 (fun _ => 0) (fun _ => 0) (fun _ => 0)
        ⟨true, true, 0⟩).err = none ∧
    (save_uhdr_jpg_file true 10 0 2 0 1 (fun _ => 0) (fun _ => 0) (fun _ => 0)
        ⟨true, true, 0⟩).exitCode = 0 ∧
    (save_p010_file true 10 0 2 0 1 (fun _ => 0) (fun _ => 0) (fun _ => 0)).err = none ∧
    (save_p010_file true 10 2 (-1) 1 0 (fun _ => 0) (fun _ => 0) (fun _ => 0)).err =
      none := by
  decide

/-- C5 (amended): in both conversion paths the invalid-geometry failure
occurs exactly when the file opened and the luma or chroma width is
strictly negative (zero dimensions and negative heights pass the check),
and when it occurs, no buffer has been allocated, nothing has been written
and no sample has been read. -/
theorem c5_negative_width_only (fileOk : Bool) (ybpp yw yh cw ch : Int)
    (yp cb cr : Nat → Nat) (env : EncoderEnv) :
    ((save_uhdr_jpg_file fileOk ybpp yw yh cw ch yp cb cr env).err =
        some ErrKind.invalidGeometry ↔ fileOk = true ∧ (yw < 0 ∨ cw < 0)) ∧
    ((save_p010_file fileOk ybpp yw yh cw ch yp cb cr).err =
        some ErrKind.invalidGeometry ↔ fileOk = true ∧ (yw < 0 ∨ cw < 0)) ∧
    (yw < 0 ∨ cw < 0 →
      (save_uhdr_jpg_file fileOk ybpp yw yh cw ch yp cb cr env).allocBytes = [] ∧
      (save_uhdr_jpg_file fileOk ybpp yw yh cw ch yp cb cr env).readCount = 0 ∧
      (save_p010_file fileOk ybpp yw yh cw ch yp cb cr).bytes = [] ∧
      (save_p010_file fileOk ybpp yw yh cw ch yp cb cr).readCount = 0) := by
  unfold save_uhdr_jpg_file save_p010_file
  cases fileOk with
  | false => simp
  | true =>
    by_cases hg : yw < 0 ∨ cw < 0
    · simp [hg]
    · by_cases hb : ybpp = 10
      · cases hs : env.setupOk <;> cases he : env.encodeOk <;> simp [hg, hb, hs, he]
      · simp [hg, hb]

/-- Witness for C5 (amended) at a concrete negative-width input. -/
theorem c5_negative_width_only_witness :
    (save_uhdr_jpg_file true 10 (-1) 2 1 1 (fun _ => 0) (fun _ => 0) (fun _ => 0)
        ⟨true, true, 0⟩).err = some ErrKind.invalidGeometry ∧
    (save_uhdr_jpg_file true 10 (-1) 2 1 1 (fun _ => 0) (fun _ => 0) (fun _ => 0)
        ⟨true, true, 0⟩).allocBytes = [] :=
  ⟨(c5_negative_width_only true 10 (-1) 2 1 1 (fun _ => 0) (fun _ => 0) (fun _ => 0)
      ⟨true, true, 0⟩).1.mpr ⟨rfl, Or.inl (by norm_num)⟩,
   ((c5_negative_width_only true 10 (-1) 2 1 1 (fun _ => 0) (fun _ => 0) (fun _ => 0)
      ⟨true, true, 0⟩).2.2 (Or.inl (by norm_num))).1⟩

/-- C6: on an opened file with valid widths, any luma bit depth other than
10 makes both conversion paths fail with the unsupported-bit-depth error
(exit code 10) without reading a single sample word and without writing any
output byte. -/
theorem c6_unsupported_bitdepth (ybpp yw yh cw ch : Int) (yp cb cr : Nat → Nat)
    (env : EncoderEnv) (hb : ybpp ≠ 10) (hg : ¬(yw < 0 ∨ cw < 0)) :
    (save_uhdr_jpg_file true ybpp yw yh cw ch yp cb cr env).err =
        some ErrKind.unsupportedBitDepth ∧
    (save_uhdr_jpg_file true ybpp yw yh cw ch yp cb cr env).exitCode = 10 ∧
    (save_uhdr_jpg_file true ybpp yw yh cw ch yp cb cr env).readCount = 0 ∧
    (save_p010_file true ybpp yw yh cw ch yp cb cr).err =
        some ErrKind.unsupportedBitDepth ∧
    (save_p010_file true ybpp yw yh cw ch yp cb cr).exitCode = 10 ∧
    (save_p010_file true ybpp yw yh cw ch yp cb cr).readCount = 0 ∧
    (save_p010_file true ybpp yw yh cw ch yp cb cr).bytes = [] := by
  unfold save_uhdr_jpg_file save_p010_file
  simp [hg, hb]

/-- Witness for C6 at a concrete 8-bit-tagged 2×2 input. -/
theorem c6_unsupported_bitdepth_witness :
    (save_uhdr_jpg_file true 8 2 2 1 1 (fun _ => 0) (fun _ => 0) (fun _ => 0)
        ⟨true, true, 0⟩).err = some ErrKind.unsupportedBitDepth ∧
    (save_uhdr_jpg_file true 8 2 2 1 1 (fun _ => 0) (fun _ => 0) (fun _ => 0)
        ⟨true, true, 0⟩).exitCode = 10 ∧
    (save_uhdr_jpg_file true 8 2 2 1 1 (fun _ => 0) (fun _ => 0) (fun _ => 0)
        ⟨true, true, 0⟩).readCount = 0 ∧
    (save_p010_file true 8 2 2 1 1 (fun _ => 0) (fun _ => 0) (fun _ => 0)).err =
        some ErrKind.unsupportedBitDepth ∧
    (save_p010_file true 8 2 2 1 1 (fun _ => 0) (fun _ => 0) (fun _ => 0)).exitCode = 10 ∧
    (save_p010_file true 8 2 2 1 1 (fun _ => 0) (fun _ => 0) (fun _ => 0)).readCount = 0 ∧
    (save_p010_file true 8 2 2 1 1 (fun _ => 0) (fun _ => 0) (fun _ => 0)).bytes = [] :=
  c6_unsupported_bitdepth 8 2 2 1 1 (fun _ => 0) (fun _ => 0) (fun _ => 0)
    ⟨true, true, 0⟩ (by norm_num) (by norm_num)

/-- C7 (counterexample): an invalid-geometry failure and an
unsupported-bit-depth failure are different failure categories yet the
process exit code is 10 in both cases. -/
theorem c7_exit_code_collision :
    (save_uhdr_jpg_file true 10 (-1) 2 1 1 (fun _ => 0) (fun _ => 0) (fun _ => 0)
        ⟨true, true, 0⟩).err = some ErrKind.invalidGeometry ∧
    (save_uhdr_jpg_file true 8 2 2 1 1 (fun _ => 0) (fun _ => 0) (fun _ => 0)
        ⟨true, true, 0⟩).err = some ErrKind.unsupportedBitDepth ∧
    ErrKind.invalidGeometry ≠ ErrKind.unsupportedBitDepth ∧
    (save_uhdr_jpg_file true 10 (-1) 2 1 1 (fun _ => 0) (fun _ => 0) (fun _ => 0)
        ⟨true, true, 0⟩).exitCode =
      (save_uhdr_jpg_file true 8 2 2 1 1 (fun _ => 0) (fun _ => 0) (fun _ => 0)
        ⟨true, true, 0⟩).exitCode := by
  decide

/-- C7 (amended): each failure category exits with its fixed small positive
code (file-open 9, invalid geometry 10, encoder setup 11, encoder encode
12, post-encode write 13, unsupported bit depth 10) and the codes of
distinct categories are pairwise distinct with a single exception: invalid
geometry and unsupported bit depth share exit code 10. -/
theorem c7_exit_codes (fileOk : Bool) (ybpp yw yh cw ch : Int)
    (yp cb cr : Nat → Nat) (env : EncoderEnv) :
    (∀ k, (save_uhdr_jpg_file fileOk ybpp yw yh cw ch yp cb cr env).err = some k →
      (save_uhdr_jpg_file fileOk ybpp yw yh cw ch yp cb cr env).exitCode =
        exitCodeOf k) ∧
    (∀ k, (save_p010_file fileOk ybpp yw yh cw ch yp cb cr).err = some k →
      (save_p010_file fileOk ybpp yw yh cw ch yp cb cr).exitCode = exitCodeOf k) ∧
    (∀ k1 k2 : ErrKind, exitCodeOf k1 = exitCodeOf k2 →
      k1 = k2 ∨ k1 = ErrKind.invalidGeometry ∧ k2 = ErrKind.unsupportedBitDepth ∨
        k1 = ErrKind.unsupportedBitDepth ∧ k2 = ErrKind.invalidGeometry) := by
  refine ⟨?_, ?_, ?_⟩
  · intro k hk
    unfold save_uhdr_jpg_file at hk ⊢
    by_cases hf : fileOk = false
    · rw [if_pos hf] at hk ⊢
      obtain rfl : ErrKind.fileOpen = k := by simpa using hk
      rfl
    · rw [if_neg hf] at hk ⊢
      by_cases hg : yw < 0 ∨ cw < 0
      · rw [if_pos hg] at hk ⊢
        obtain rfl : ErrKind.invalidGeometry = k := by simpa using hk
        rfl
      · rw [if_neg hg] at hk ⊢
        by_cases hb : ybpp = 10
        · rw [if_pos hb] at hk ⊢
          by_cases hs : env.setupOk = false
          · rw [if_pos hs] at hk ⊢
            obtain rfl : ErrKind.encoderSetup = k := by simpa using hk
            rfl
          · rw [if_neg hs] at hk ⊢
            by_cases he : env.encodeOk = false
            · rw [if_pos he] at hk ⊢
              obtain rfl : ErrKind.encoderEncode = k := by simpa using hk
              rfl
            · rw [if_neg he] at hk
              simp at hk
        · rw [if_neg hb] at hk ⊢
          obtain rfl : ErrKind.unsupportedBitDepth = k := by simpa using hk
          rfl
  · intro k hk
    unfold save_p010_file at hk ⊢
    by_cases hf : fileOk = false
    · rw [if_pos hf] at hk ⊢
      obtain rfl : ErrKind.fileOpen = k := by simpa using hk
      rfl
    · rw [if_neg hf] at hk ⊢
      by_cases hg : yw < 0 ∨ cw < 0
      · rw [if_pos hg] at hk ⊢
        obtain rfl : ErrKind.invalidGeometry = k := by simpa using hk
        rfl
      · rw [if_neg hg] at hk ⊢
        by_cases hb : ybpp = 10
        · rw [if_pos hb] at hk
          simp at hk
        · rw [if_neg hb] at hk ⊢
          obtain rfl : ErrKind.unsupportedBitDepth = k := by simpa using hk
          rfl
  · intro k1 k2 h
    cases k1 <;> cases k2 <;> simp_all [exitCodeOf]

/-- Witness for C7 (amended): a failed file open exits with
`exitCodeOf fileOpen = 9`. -/
theorem c7_exit_codes_witness :
    (save_uhdr_jpg_file false 10 2 2 1 1 (fun _ => 0) (fun _ => 0) (fun _ => 0)
        ⟨true, true, 0⟩).exitCode = exitCodeOf ErrKind.fileOpen :=
  (c7_exit_codes false 10 2 2 1 1 (fun _ => 0) (fun _ => 0) (fun _ => 0)
    ⟨true, true, 0⟩).1 ErrKind.fileOpen (by decide)

/-- A list without a dot has no last-dot index. -/
theorem rfindDotIdx_eq_none (l : List Char) (h : '.' ∉ l) : rfindDotIdx l = none := by
  induction l with
  | nil => rfl
  | cons c rest ih =>
    rw [List.mem_cons] at h
    push_neg at h
    obtain ⟨h1, h2⟩ := h
    unfold rfindDotIdx
    rw [ih h2]
    simp [Ne.symm h1]

/-- The last-dot index of `a ++ '.' :: b` with no dot in `b` is `a.length`. -/
theorem rfindDotIdx_append (a b : List Char) (hb : '.' ∉ b) :
    rfindDotIdx (a ++ '.' :: b) = some a.length := by
  induction a with
  | nil =>
    show rfindDotIdx ('.' :: b) = some 0
    unfold rfindDotIdx
    rw [rfindDotIdx_eq_none b hb]
    simp
  | cons c a ih =>
    show rfindDotIdx (c :: (a ++ '.' :: b)) = some (a.length + 1)
    unfold rfindDotIdx
    rw [ih]

/-- With no dot in the input, derivation appends `"." + suffix` to the
whole input name. -/
theorem derive_no_dot (inp s : List Char) (h : '.' ∉ inp) :
    derive_output_filename inp s = inp ++ '.' :: s := by
  unfold derive_output_filename
  rw [rfindDotIdx_eq_none inp h]

/-- With `a` the part before the last dot, derivation keeps `a` and
appends `"." + suffix`. -/
theorem derive_last_dot (a b s : List Char) (hb : '.' ∉ b) :
    derive_output_filename (a ++ '.' :: b) s = a ++ '.' :: s := by
  unfold derive_output_filename
  rw [rfindDotIdx_append a b hb]
  show List.take a.length (a ++ '.' :: b) ++ '.' :: s = a ++ '.' :: s
  rw [List.take_left]

/-- C10: the output filename is replaced exactly when the user-supplied
name begins with `-` (the default `"-"` included); the replacement is the
input filename truncated at its last dot (kept whole when it has none) with
`.p010` appended in raw mode and `.uhdr.jpg` in encode mode. -/
theorem c10_output_filename (p010 : Bool) (inp out : List Char) :
    (startsWithDash out = false → mainOutputFilename p010 inp out = out) ∧
    (startsWithDash out = true →
      mainOutputFilename p010 inp out =
        derive_output_filename inp
          (if p010 then ['p', '0', '1', '0']
           else ['u', 'h', 'd', 'r', '.', 'j', 'p', 'g'])) ∧
    ('.' ∉ inp → ∀ s, derive_output_filename inp s = inp ++ '.' :: s) ∧
    (∀ a b s, inp = a ++ '.' :: b → '.' ∉ b →
      derive_output_filename inp s = a ++ '.' :: s) := by
  refine ⟨?_, ?_, ?_, ?_⟩
  · intro h
    unfold mainOutputFilename
    rw [h]
    simp
  · intro h
    unfold mainOutputFilename
    rw [h]
    cases p010 <;> simp
  · intro h s
    exact derive_no_dot inp s h
  · intro a b s hab hb
    rw [hab]
    exact derive_last_dot a b s hb

/-- Witness for C10: input `in.hc` with the default output `-` in raw mode
derives `in.p010`. -/
theorem c10_output_filename_witness :
    mainOutputFilename true ['i', 'n', '.', 'h', 'c'] ['-'] =
      ['i', 'n'] ++ '.' :: ['p', '0', '1', '0'] := by
  have h := c10_output_filename true ['i', 'n', '.', 'h', 'c'] ['-']
  rw [h.2.1 rfl,
    h.2.2.2 ['i', 'n'] ['h', 'c'] (if true then ['p', '0', '1', '0']
      else ['u', 'h', 'd', 'r', '.', 'j', 'p', 'g']) rfl (by decide)]
  rfl

end Heif2Jpg
